import Mathlib

/-!
Verification of the inventory-consistency and reservation-fulfillment core of
the Biblioteca repository.  The Python source is embedded shallowly: each
Python class becomes a structure, each mutating method becomes a function
returning the updated value, and methods that raise ValueError return
`Except String`.  Python `str.strip()` is modelled by `strip` below (it is
defined directly over the character data so that it evaluates inside the
kernel); Python string comparison is the lexicographic order on code points,
which is exactly the order on `String` provided by Mathlib.
-/

namespace Biblioteca

/-- Model of Python `str.strip()`: drop whitespace from both ends.  Defined
over the underlying character list so that concrete instances evaluate. -/
def strip (s : String) : String :=
  ⟨((s.data.dropWhile Char.isWhitespace).reverse.dropWhile Char.isWhitespace).reverse⟩

/-- Book record (src/models/libro.py).  Only the fields read or written by
the verified operations are carried: `isbn` (the unique key, stripped by the
constructor) and `stock`.  The remaining fields (titulo, autor, peso, valor,
genero, editorial, anio_publicacion) are inert metadata for every operation
treated here. -/
structure Libro where
  isbn : String
  stock : Nat
deriving Repr, DecidableEq

/-- Libro.incrementar_stock: stock += 1, unconditional. -/
def Libro.incrementar_stock (l : Libro) : Libro :=
  { l with stock := l.stock + 1 }

/-- Libro.decrementar_stock: stock -= 1 only when stock > 0. -/
def Libro.decrementar_stock (l : Libro) : Libro :=
  if l.stock > 0 then { l with stock := l.stock - 1 } else l

/-- Libro.esta_disponible: stock > 0. -/
def Libro.esta_disponible (l : Libro) : Bool :=
  l.stock > 0

/-- User record (src/models/usuario.py); fields relevant to loan decisions. -/
structure Usuario where
  id_usuario : String
  activo : Bool
  libros_prestados : Nat
  max_prestamos : Nat
deriving Repr, DecidableEq

/-- Usuario.puede_prestar: active and under the loan cap. -/
def Usuario.puede_prestar (u : Usuario) : Bool :=
  u.activo && decide (u.libros_prestados < u.max_prestamos)

/-- Usuario.incrementar_prestamos: increments only when puede_prestar holds. -/
def Usuario.incrementar_prestamos (u : Usuario) : Usuario :=
  if u.puede_prestar then { u with libros_prestados := u.libros_prestados + 1 } else u

/-- Usuario.decrementar_prestamos: decrements only when the count is positive. -/
def Usuario.decrementar_prestamos (u : Usuario) : Usuario :=
  if u.libros_prestados > 0 then { u with libros_prestados := u.libros_prestados - 1 } else u

/-- Reservation record held by the queue (src/estructuras_datos/cola.py). -/
structure Registro where
  id_usuario : String
  isbn : String
  fecha : String
deriving Repr, DecidableEq

/-- FIFO reservation queue (src/estructuras_datos/cola.py). -/
structure Cola where
  elementos : List Registro
  capacidad_max : Option Nat
deriving Repr, DecidableEq

namespace Cola

/-- Cola.esta_vacia. -/
def esta_vacia (c : Cola) : Bool :=
  c.elementos.isEmpty

/-- Cola.esta_llena: false when capacidad_max is None. -/
def esta_llena (c : Cola) : Bool :=
  match c.capacidad_max with
  | none => false
  | some cap => c.elementos.length ≥ cap

/-- Cola.encolar: raises ValueError on a blank user id or ISBN (the Python
guard `not x or x.strip() == ""` is equivalent to `strip x = ""`), returns
False without mutating when full, otherwise appends the stripped record at
the tail and returns True. -/
def encolar (c : Cola) (id_usuario isbn fecha : String) :
    Except String (Cola × Bool) :=
  if strip id_usuario = "" then .error "User ID cannot be empty"
  else if strip isbn = "" then .error "ISBN cannot be empty"
  else if c.esta_llena then .ok (c, false)
  else .ok ({ c with elementos :=
                c.elementos ++ [⟨strip id_usuario, strip isbn, fecha⟩] }, true)

/-- Cola.desencolar: pops and returns the global head; None on empty. -/
def desencolar (c : Cola) : Option Registro × Cola :=
  match c.elementos with
  | [] => (none, c)
  | r :: rest => (some r, { c with elementos := rest })

/-- Cola.frente: head without removal; None on empty. -/
def frente (c : Cola) : Option Registro :=
  match c.elementos with
  | [] => none
  | r :: _ => some r

/-- Cola.tamanio. -/
def tamanio (c : Cola) : Nat :=
  c.elementos.length

/-- Cola.obtener_todos: copy of the records, front first. -/
def obtener_todos (c : Cola) : List Registro :=
  c.elementos

/-- Cola.buscar_libro: all records for an ISBN, front to rear. -/
def buscar_libro (c : Cola) (isbn : String) : List Registro :=
  c.elementos.filter (fun r => r.isbn == isbn)

/-- Cola.contar_reservas_libro. -/
def contar_reservas_libro (c : Cola) (isbn : String) : Nat :=
  (c.elementos.filter (fun r => r.isbn == isbn)).length

/-- Cola.obtener_siguiente_usuario: first record matching the ISBN, scanning
from the front, without removal. -/
def obtener_siguiente_usuario (c : Cola) (isbn : String) : Option Registro :=
  c.elementos.find? (fun r => r.isbn == isbn)

end Cola

/-- Loan-history record pushed on a per-user stack (src/estructuras_datos/pila.py). -/
structure Prestamo where
  isbn : String
  fecha : String
deriving Repr, DecidableEq

/-- LIFO loan-history stack (src/estructuras_datos/pila.py).  The tail of
`elementos` is the stack top (most recent loan). -/
structure Pila where
  elementos : List Prestamo
  capacidad_max : Option Nat
deriving Repr, DecidableEq

namespace Pila

/-- Pila.esta_vacia. -/
def esta_vacia (p : Pila) : Bool :=
  p.elementos.isEmpty

/-- Pila.esta_llena. -/
def esta_llena (p : Pila) : Bool :=
  match p.capacidad_max with
  | none => false
  | some cap => p.elementos.length ≥ cap

/-- Pila.apilar: raises on a blank ISBN, returns False without mutating when
full, otherwise appends the stripped record at the tail (stack top). -/
def apilar (p : Pila) (isbn fecha : String) : Except String (Pila × Bool) :=
  if strip isbn = "" then .error "ISBN cannot be empty"
  else if p.esta_llena then .ok (p, false)
  else .ok ({ p with elementos := p.elementos ++ [⟨strip isbn, fecha⟩] }, true)

/-- Pila.desapilar: pops the tail (most recent); None on empty. -/
def desapilar (p : Pila) : Option Prestamo × Pila :=
  match p.elementos.getLast? with
  | none => (none, p)
  | some r => (some r, { p with elementos := p.elementos.dropLast })

/-- Pila.obtener_todos: copy of the records in storage order (oldest first). -/
def obtener_todos (p : Pila) : List Prestamo :=
  p.elementos

end Pila

/-- The key compared by binary search (src/algoritmos_busqueda/busqueda_binaria.py):
`str(libro.isbn).strip()`. -/
def claveBusqueda (l : Libro) : String :=
  strip l.isbn

/-- Default element standing for the out-of-range access that Python would
raise on; every theorem below keeps the indices in range, where this default
is never consulted. -/
def libroDefault : Libro :=
  ⟨"", 0⟩

/-- Loop body of busqueda_binaria (src/algoritmos_busqueda/busqueda_binaria.py,
lines 34-87): iterative halving over the closed interval [inicio, fin], with
`medio = (inicio + fin) // 2` (Python floor division, which is `Int./` here)
and lexicographic comparison of stripped ISBN strings. -/
def busquedaAux (lista : List Libro) (objetivo : String) (inicio fin : Int) : Int :=
  if h : inicio ≤ fin then
    let medio : Int := (inicio + fin) / 2
    let isbnMedio := claveBusqueda (lista.getD medio.toNat libroDefault)
    if isbnMedio = objetivo then medio
    else if isbnMedio < objetivo then busquedaAux lista objetivo (medio + 1) fin
    else busquedaAux lista objetivo inicio (medio - 1)
  else
    -1
termination_by (fin + 1 - inicio).toNat
decreasing_by
  · have h1 : inicio ≤ (inicio + fin) / 2 := by
      have := Int.ediv_le_ediv (a := inicio + inicio) (b := inicio + fin) (c := 2)
        (by norm_num) (by omega)
      omega
    omega
  · have h2 : (inicio + fin) / 2 ≤ fin := by
      have := Int.ediv_le_ediv (a := inicio + fin) (b := fin + fin) (c := 2)
        (by norm_num) (by omega)
      omega
    omega

/-- busqueda_binaria with its default arguments inicio=0, fin=len-1; the
searched ISBN is normalized with strip before the loop. -/
def busqueda_binaria (lista : List Libro) (isbn_buscado : String) : Int :=
  busquedaAux lista (strip isbn_buscado) 0 ((lista.length : Int) - 1)

/-- buscar_libro_por_isbn (same module, lines 138-162): binary search, then
return the element at the found position, or None on a miss. -/
def buscar_libro_por_isbn (lista : List Libro) (isbn : String) : Option Libro :=
  let posicion := busqueda_binaria lista isbn
  if posicion ≠ -1 then some (lista.getD posicion.toNat libroDefault) else none

/-- insertar_ordenado (src/algoritmos_ordenamiento/insercion.py, lines 95-145)
specialised to clave=isbn, the only key the repository uses: the scan sets
posicion to the index of the first element whose raw isbn is strictly greater
than the isbn of the new book (or to the length when none is), then inserts
there. -/
def insertar_ordenado (lista : List Libro) (nuevo : Libro) : List Libro :=
  lista.insertIdx (lista.findIdx (fun libro => decide (nuevo.isbn < libro.isbn))) nuevo

/-- Recursive restatement of the insertar_ordenado scan, used for proofs and
proved equal to insertar_ordenado below. -/
def insOrd (nuevo : Libro) : List Libro → List Libro
  | [] => [nuevo]
  | x :: xs => if nuevo.isbn < x.isbn then nuevo :: x :: xs else x :: insOrd nuevo xs

/-- The sorted-view invariant used by binary search: non-decreasing in the
stripped ISBN key. -/
def OrdenadaPorClave (lista : List Libro) : Prop :=
  List.Pairwise (fun a b => claveBusqueda a ≤ claveBusqueda b) lista

/-- The sorted-view invariant maintained by insertar_ordenado: non-decreasing
in the raw isbn field (the key the insertion scan compares). -/
def OrdenadaPorIsbn (lista : List Libro) : Prop :=
  List.Pairwise (fun a b => a.isbn ≤ b.isbn) lista

/-- Inventory manager (src/gestor/gestor_inventario.py): the dual view, a
load-order list and an ISBN-sorted list over the same books. -/
structure GestorInventario where
  inventario_general : List Libro
  inventario_ordenado : List Libro
deriving Repr, DecidableEq

/-- GestorInventario.buscar_por_isbn: binary search over the sorted view. -/
def GestorInventario.buscar_por_isbn (g : GestorInventario) (isbn : String) : Option Libro :=
  buscar_libro_por_isbn g.inventario_ordenado isbn

/-- GestorInventario.agregar_libro (lines 143-176): refuse when the ISBN is
already found by binary search, otherwise append to the general view and
sorted-insert into the sorted view. -/
def GestorInventario.agregar_libro (g : GestorInventario) (libro : Libro) :
    GestorInventario × Bool :=
  match g.buscar_por_isbn libro.isbn with
  | some _ => (g, false)
  | none =>
    ({ inventario_general := g.inventario_general ++ [libro],
       inventario_ordenado := insertar_ordenado g.inventario_ordenado libro }, true)

/-- GestorInventario.eliminar_libro (lines 224-251): rebuild both views
keeping the books whose raw isbn differs from the argument. -/
def GestorInventario.eliminar_libro (g : GestorInventario) (isbn : String) :
    GestorInventario × Bool :=
  ({ inventario_general := g.inventario_general.filter (fun l => !(l.isbn == isbn)),
     inventario_ordenado := g.inventario_ordenado.filter (fun l => !(l.isbn == isbn)) }, true)

/-- One add or remove step on the dual inventory (claim C5 quantifies over
sequences of these). -/
inductive OpInventario where
  | agregar (libro : Libro)
  | eliminar (isbn : String)

/-- Apply one operation, discarding the Bool status as the claim does. -/
def GestorInventario.aplicar (g : GestorInventario) : OpInventario → GestorInventario
  | .agregar libro => (g.agregar_libro libro).1
  | .eliminar isbn => (g.eliminar_libro isbn).1

/-- Dual-view consistency: same ISBN sets in both views, sorted view
non-decreasing by ISBN. -/
def Consistente (g : GestorInventario) : Prop :=
  (∀ s : String,
      s ∈ g.inventario_general.map Libro.isbn ↔ s ∈ g.inventario_ordenado.map Libro.isbn) ∧
  OrdenadaPorIsbn g.inventario_ordenado

/-- Whole-system state touched by the loan manager
(src/gestor/gestor_prestamos.py): the dual inventory, the user registry
(a dict, modelled as an association list with distinct keys), the shared
reservation queue and the per-user loan-history stacks. -/
structure Sistema where
  inventario : GestorInventario
  usuarios : List (String × Usuario)
  cola_reservas : Cola
  historial_prestamos : List (String × Pila)
deriving Repr, DecidableEq

/-- Update the entry of one user in the registry (Python mutates the object
held in the dict; keys are unique, so the keyed map is that mutation). -/
def actualizarUsuario (us : List (String × Usuario)) (id_usuario : String)
    (f : Usuario → Usuario) : List (String × Usuario) :=
  us.map (fun par => if par.1 = id_usuario then (par.1, f par.2) else par)

/-- Store a per-user stack under its key, creating the entry when absent
(Python: `self.historial_prestamos[id_usuario] = pila`). -/
def fijarPila (h : List (String × Pila)) (id_usuario : String) (p : Pila) :
    List (String × Pila) :=
  if (h.lookup id_usuario).isSome then
    h.map (fun par => if par.1 = id_usuario then (par.1, p) else par)
  else h ++ [(id_usuario, p)]

/-- Python mutates the one Libro object shared by both inventory views; with
unique ISBNs (the repository invariant) that is the same as bumping the stock
of every book whose stripped isbn is the searched key. -/
def incrementarStock (lista : List Libro) (isbn : String) : List Libro :=
  lista.map (fun l => if strip l.isbn = strip isbn then l.incrementar_stock else l)

/-- Increment, in both views, the stock of the book that
gestor_inventario.buscar_por_isbn located. -/
def Sistema.incrementarStockLibro (s : Sistema) (isbn : String) : Sistema :=
  { s with inventario :=
      { inventario_general := incrementarStock s.inventario.inventario_general isbn,
        inventario_ordenado := incrementarStock s.inventario.inventario_ordenado isbn } }

/-- GestorPrestamos.procesar_prestamo_automatico (lines 288-338): look up the
user and the book; when the user can no longer borrow, restock the book and
report False; otherwise increment the loan count and push the loan on the
history stack (created lazily).  The except-clause of the Python source maps
a raised error inside apilar to a False report with the increments kept. -/
def procesar_prestamo_automatico (s : Sistema) (id_usuario isbn fecha : String) :
    Sistema × Bool :=
  match s.usuarios.lookup id_usuario, buscar_libro_por_isbn s.inventario.inventario_ordenado isbn with
  | some usuario, some _libro =>
    if ¬ usuario.puede_prestar then
      (s.incrementarStockLibro isbn, false)
    else
      let s1 := { s with usuarios := actualizarUsuario s.usuarios id_usuario Usuario.incrementar_prestamos }
      let pila := (s1.historial_prestamos.lookup id_usuario).getD ⟨[], none⟩
      match pila.apilar isbn fecha with
      | .error _ => (s1, false)
      | .ok (pila2, _) =>
        ({ s1 with historial_prestamos := fijarPila s1.historial_prestamos id_usuario pila2 }, true)
  | _, _ => (s, false)

/-- Outcome record built by verificar_y_asignar_reserva. -/
structure ResultadoVerificacion where
  libro_encontrado : Bool
  posicion : Int
  tiene_reservas : Bool
  usuario_asignado : Option String
  reserva_procesada : Option Registro
  prestamo_procesado : Option Bool
deriving Repr, DecidableEq

/-- verificar_y_asignar_reserva (src/algoritmos_busqueda/busqueda_binaria.py,
lines 165-246), with the loan manager present as at its call site in
devolver_libro: binary search for the returned ISBN; on a miss return early;
peek the first queued reservation for this ISBN; when one exists, dequeue the
global head and process the automatic loan for the dequeued user. -/
def verificar_y_asignar_reserva (isbn : String) (s : Sistema) (fecha : String) :
    Sistema × ResultadoVerificacion :=
  let posicion := busqueda_binaria s.inventario.inventario_ordenado isbn
  if posicion = -1 then
    (s, ⟨false, posicion, false, none, none, none⟩)
  else
    match s.cola_reservas.obtener_siguiente_usuario isbn with
    | none => (s, ⟨true, posicion, false, none, none, none⟩)
    | some _ =>
      match s.cola_reservas.desencolar with
      | (none, cola2) =>
        ({ s with cola_reservas := cola2 }, ⟨true, posicion, true, none, none, none⟩)
      | (some reserva, cola2) =>
        let par := procesar_prestamo_automatico { s with cola_reservas := cola2 }
          reserva.id_usuario isbn fecha
        (par.1, ⟨true, posicion, true, some reserva.id_usuario, some reserva, some par.2⟩)

/-- GestorPrestamos.devolver_libro (lines 179-286): validate that the user
exists, that binary search finds the book in the sorted view, and that the
ISBN occurs in the returning user loan history; then increment the stock,
decrement the loan count of the returning user, and run
verificar_y_asignar_reserva.  The Bool is the exito field of the result. -/
def devolver_libro (s : Sistema) (id_usuario isbn fecha : String) : Sistema × Bool :=
  match s.usuarios.lookup id_usuario with
  | none => (s, false)
  | some _usuario =>
    match buscar_libro_por_isbn s.inventario.inventario_ordenado isbn with
    | none => (s, false)
    | some _libro =>
      match s.historial_prestamos.lookup id_usuario with
      | none => (s, false)
      | some pila =>
        if pila.esta_vacia then (s, false)
        else if ¬ (pila.elementos.map Prestamo.isbn).contains isbn then (s, false)
        else
          let s1 := { s.incrementarStockLibro isbn with
            usuarios := actualizarUsuario s.usuarios id_usuario Usuario.decrementar_prestamos }
          ((verificar_y_asignar_reserva isbn s1 fecha).1, true)

/-- GestorPrestamos.obtener_historial_usuario (lines 340-356): the stored
stack reversed, most recent loan first; empty when the user has no stack. -/
def obtener_historial_usuario (s : Sistema) (id_usuario : String) : List Prestamo :=
  match s.historial_prestamos.lookup id_usuario with
  | none => []
  | some pila => pila.obtener_todos.reverse

theorem insertar_ordenado_eq_insOrd (lista : List Libro) (nuevo : Libro) :
    insertar_ordenado lista nuevo = insOrd nuevo lista := by
  induction lista with
  | nil => rfl
  | cons x xs ih =>
    simp only [insertar_ordenado, insOrd, List.findIdx_cons] at *
    by_cases h : nuevo.isbn < x.isbn
    · simp [h, List.insertIdx]
    · simp [h, List.insertIdx] at *
      exact ih

theorem ordenada_le {lista : List Libro} (hs : OrdenadaPorClave lista) {i j : Nat}
    (hij : i ≤ j) (hj : j < lista.length) :
    claveBusqueda (lista.getD i libroDefault) ≤ claveBusqueda (lista.getD j libroDefault) := by
  rcases Nat.lt_or_ge i j with hlt | hge
  · rw [List.getD_eq_getElem lista libroDefault (Nat.lt_trans hlt hj),
      List.getD_eq_getElem lista libroDefault hj]
    exact List.pairwise_iff_getElem.mp hs i j (Nat.lt_trans hlt hj) hj hlt
  · have : i = j := Nat.le_antisymm hij hge
    subst this
    exact le_refl _

theorem div2_ge {a b : Int} (h : a ≤ b) : a ≤ (a + b) / 2 := by
  have := Int.ediv_le_ediv (a := a + a) (b := a + b) (c := 2) (by norm_num) (by omega)
  omega

theorem div2_le {a b : Int} (h : a ≤ b) : (a + b) / 2 ≤ b := by
  have := Int.ediv_le_ediv (a := a + b) (b := b + b) (c := 2) (by norm_num) (by omega)
  omega

/-- Soundness of the halving loop: a result other than -1 is an in-range
index whose element carries the searched key. -/
theorem busquedaAux_sound (lista : List Libro) (objetivo : String) (inicio fin : Int)
    (h0 : 0 ≤ inicio) (hf : fin < (lista.length : Int))
    (hne : busquedaAux lista objetivo inicio fin ≠ -1) :
    ∃ k : Nat, busquedaAux lista objetivo inicio fin = (k : Int) ∧ k < lista.length ∧
      claveBusqueda (lista.getD k libroDefault) = objetivo := by
  rw [busquedaAux] at hne ⊢
  by_cases hle : inicio ≤ fin
  · have hge := div2_ge hle
    have hlef := div2_le hle
    simp only [dif_pos hle] at hne ⊢
    by_cases heq : claveBusqueda (lista.getD ((inicio + fin) / 2).toNat libroDefault) = objetivo
    · refine ⟨((inicio + fin) / 2).toNat, ?_, ?_, heq⟩
      · rw [if_pos heq]
        omega
      · omega
    · by_cases hlt : claveBusqueda (lista.getD ((inicio + fin) / 2).toNat libroDefault) < objetivo
      · simp only [if_neg heq, if_pos hlt] at hne ⊢
        exact busquedaAux_sound lista objetivo ((inicio + fin) / 2 + 1) fin (by omega) hf hne
      · simp only [if_neg heq, if_neg hlt] at hne ⊢
        exact busquedaAux_sound lista objetivo inicio ((inicio + fin) / 2 - 1) h0 (by omega) hne
  · simp [dif_neg hle] at hne
termination_by (fin + 1 - inicio).toNat
decreasing_by
  · omega
  · omega

/-- Completeness of the halving loop over a sorted list: when the key occurs
at an index inside the current interval, the loop does not answer -1. -/
theorem busquedaAux_complete (lista : List Libro) (objetivo : String) (inicio fin : Int)
    (h0 : 0 ≤ inicio) (hf : fin < (lista.length : Int))
    (hs : OrdenadaPorClave lista) (j : Nat) (hj : j < lista.length)
    (hji : inicio ≤ (j : Int)) (hjf : (j : Int) ≤ fin)
    (hkey : claveBusqueda (lista.getD j libroDefault) = objetivo) :
    busquedaAux lista objetivo inicio fin ≠ -1 := by
  have hle : inicio ≤ fin := le_trans hji hjf
  have hge := div2_ge hle
  have hlef := div2_le hle
  rw [busquedaAux]
  simp only [dif_pos hle]
  by_cases heq : claveBusqueda (lista.getD ((inicio + fin) / 2).toNat libroDefault) = objetivo
  · simp only [if_pos heq]
    omega
  · by_cases hlt : claveBusqueda (lista.getD ((inicio + fin) / 2).toNat libroDefault) < objetivo
    · simp only [if_neg heq, if_pos hlt]
      have hjgt : (inicio + fin) / 2 + 1 ≤ (j : Int) := by
        by_contra hcon
        have hjm : j ≤ ((inicio + fin) / 2).toNat := by omega
        have hmlen : ((inicio + fin) / 2).toNat < lista.length := by omega
        have := ordenada_le hs hjm hmlen
        rw [hkey] at this
        exact absurd (lt_of_le_of_lt this hlt) (lt_irrefl _)
      exact busquedaAux_complete lista objetivo ((inicio + fin) / 2 + 1) fin (by omega) hf
        hs j hj hjgt hjf hkey
    · simp only [if_neg heq, if_neg hlt]
      have hmge : objetivo ≤ claveBusqueda (lista.getD ((inicio + fin) / 2).toNat libroDefault) :=
        le_of_not_lt hlt
      have hjlt : (j : Int) ≤ (inicio + fin) / 2 - 1 := by
        by_contra hcon
        have hjm : ((inicio + fin) / 2).toNat ≤ j := by omega
        have := ordenada_le hs hjm hj
        rw [hkey] at this
        exact heq (le_antisymm this hmge)
      exact busquedaAux_complete lista objetivo inicio ((inicio + fin) / 2 - 1) h0 (by omega)
        hs j hj hji hjlt hkey
termination_by (fin + 1 - inicio).toNat
decreasing_by
  · omega
  · omega

theorem insOrd_perm (nuevo : Libro) (l : List Libro) :
    (insOrd nuevo l).Perm (nuevo :: l) := by
  induction l with
  | nil => exact List.Perm.refl _
  | cons x xs ih =>
    simp only [insOrd]
    by_cases h : nuevo.isbn < x.isbn
    · rw [if_pos h]
    · rw [if_neg h]
      exact (ih.cons x).trans (List.Perm.swap nuevo x xs)

theorem insOrd_mem {y nuevo : Libro} {l : List Libro} :
    y ∈ insOrd nuevo l ↔ y = nuevo ∨ y ∈ l := by
  rw [(insOrd_perm nuevo l).mem_iff, List.mem_cons]

theorem insOrd_length (nuevo : Libro) (l : List Libro) :
    (insOrd nuevo l).length = l.length + 1 :=
  (insOrd_perm nuevo l).length_eq

theorem insOrd_takeWhile (nuevo : Libro) (l : List Libro) :
    insOrd nuevo l =
      l.takeWhile (fun b => !(decide (nuevo.isbn < b.isbn))) ++
        nuevo :: l.dropWhile (fun b => !(decide (nuevo.isbn < b.isbn))) := by
  induction l with
  | nil => rfl
  | cons x xs ih =>
    simp only [insOrd, List.takeWhile_cons, List.dropWhile_cons]
    by_cases h : nuevo.isbn < x.isbn
    · simp [h]
    · simp only [h, decide_False, Bool.not_false, if_pos, if_true]
      simpa using ih

theorem insOrd_sorted {l : List Libro} (nuevo : Libro) (hs : OrdenadaPorIsbn l) :
    OrdenadaPorIsbn (insOrd nuevo l) := by
  induction l with
  | nil => simp [insOrd, OrdenadaPorIsbn]
  | cons x xs ih =>
    rcases List.pairwise_cons.mp hs with ⟨hx, hxs⟩
    simp only [insOrd]
    by_cases h : nuevo.isbn < x.isbn
    · rw [if_pos h]
      refine List.pairwise_cons.mpr ⟨?_, hs⟩
      intro b hb
      rcases List.mem_cons.mp hb with hb | hb
      · exact hb ▸ le_of_lt h
      · exact le_trans (le_of_lt h) (hx b hb)
    · rw [if_neg h]
      refine List.pairwise_cons.mpr ⟨?_, ih hxs⟩
      intro b hb
      rcases insOrd_mem.mp hb with hb | hb
      · exact hb ▸ not_lt.mp h
      · exact hx b hb

/-- C4: for every list sorted ascending (non-decreasing) by raw ISBN and
every new book, insertar_ordenado inserts the book immediately before the
first element whose key is strictly greater than the new key (so a tie goes
after the existing equal keys, stated here as the takeWhile and dropWhile
split at that first element), the resulting list is again sorted ascending,
and its length is exactly one more than before. -/
theorem claim4_insertar_ordenado (lista : List Libro) (nuevo : Libro)
    (hs : OrdenadaPorIsbn lista) :
    insertar_ordenado lista nuevo =
      lista.takeWhile (fun b => !(decide (nuevo.isbn < b.isbn))) ++
        nuevo :: lista.dropWhile (fun b => !(decide (nuevo.isbn < b.isbn))) ∧
    OrdenadaPorIsbn (insertar_ordenado lista nuevo) ∧
    (insertar_ordenado lista nuevo).length = lista.length + 1 := by
  rw [insertar_ordenado_eq_insOrd]
  exact ⟨insOrd_takeWhile nuevo lista, insOrd_sorted nuevo hs, insOrd_length nuevo lista⟩

/-- Witness for C4, on the spec scenario: inserting isbn 400 into the sorted
list [100, 300, 500]. -/
theorem claim4_insertar_ordenado_witness :
    OrdenadaPorIsbn [⟨"100", 1⟩, ⟨"300", 1⟩, ⟨"500", 1⟩] ∧
    (OrdenadaPorIsbn (insertar_ordenado [⟨"100", 1⟩, ⟨"300", 1⟩, ⟨"500", 1⟩] ⟨"400", 1⟩) ∧
      (insertar_ordenado [⟨"100", 1⟩, ⟨"300", 1⟩, ⟨"500", 1⟩] ⟨"400", 1⟩).length = 4) := by
  have hs : OrdenadaPorIsbn [(⟨"100", 1⟩ : Libro), ⟨"300", 1⟩, ⟨"500", 1⟩] := by
    simp [OrdenadaPorIsbn, List.pairwise_cons]
    decide
  have h := claim4_insertar_ordenado [⟨"100", 1⟩, ⟨"300", 1⟩, ⟨"500", 1⟩] ⟨"400", 1⟩ hs
  exact ⟨hs, h.2.1, h.2.2⟩

/-- C3: for every list sorted ascending by stripped ISBN and every searched
ISBN: if some element carries the stripped searched key, busqueda_binaria
returns an index i whose element carries that key; if no element matches,
it returns the sentinel -1; and -1 is never a valid index of the list. -/
theorem claim3_busqueda_binaria (lista : List Libro) (isbn : String)
    (hs : OrdenadaPorClave lista) :
    ((∃ j : Nat, j < lista.length ∧
        claveBusqueda (lista.getD j libroDefault) = strip isbn) →
      ∃ i : Nat, busqueda_binaria lista isbn = (i : Int) ∧ i < lista.length ∧
        claveBusqueda (lista.getD i libroDefault) = strip isbn) ∧
    ((∀ l ∈ lista, claveBusqueda l ≠ strip isbn) → busqueda_binaria lista isbn = -1) ∧
    (∀ i : Nat, i < lista.length → (-1 : Int) ≠ (i : Int)) := by
  refine ⟨?_, ?_, ?_⟩
  · rintro ⟨j, hj, hkey⟩
    have hne : busquedaAux lista (strip isbn) 0 ((lista.length : Int) - 1) ≠ -1 :=
      busquedaAux_complete lista (strip isbn) 0 ((lista.length : Int) - 1)
        (by omega) (by omega) hs j hj (by omega) (by omega) hkey
    exact busquedaAux_sound lista (strip isbn) 0 ((lista.length : Int) - 1)
      (by omega) (by omega) hne
  · intro habs
    by_contra hne
    obtain ⟨k, _, hklen, hkey⟩ := busquedaAux_sound lista (strip isbn) 0
      ((lista.length : Int) - 1) (by omega) (by omega) hne
    refine habs (lista.getD k libroDefault) ?_ hkey
    rw [List.getD_eq_getElem lista libroDefault hklen]
    exact List.getElem_mem hklen
  · intro i hi
    omega

/-- Witness for C3, on the spec scenario list [100, 300, 500] with the key
300 present. -/
theorem claim3_busqueda_binaria_witness :
    OrdenadaPorClave [⟨"100", 1⟩, ⟨"300", 1⟩, ⟨"500", 1⟩] ∧
    (∃ j : Nat, j < 3 ∧
      claveBusqueda (List.getD [⟨"100", 1⟩, ⟨"300", 1⟩, ⟨"500", 1⟩] j libroDefault) =
        strip "300") ∧
    ∃ i : Nat, busqueda_binaria [⟨"100", 1⟩, ⟨"300", 1⟩, ⟨"500", 1⟩] "300" = (i : Int) ∧
      i < ([(⟨"100", 1⟩ : Libro), ⟨"300", 1⟩, ⟨"500", 1⟩]).length ∧
      claveBusqueda (List.getD [⟨"100", 1⟩, ⟨"300", 1⟩, ⟨"500", 1⟩] i libroDefault) =
        strip "300" := by
  have hs : OrdenadaPorClave [(⟨"100", 1⟩ : Libro), ⟨"300", 1⟩, ⟨"500", 1⟩] := by
    simp [OrdenadaPorClave, List.pairwise_cons, claveBusqueda]
    decide
  have hmem : ∃ j : Nat, j < 3 ∧
      claveBusqueda (List.getD [⟨"100", 1⟩, ⟨"300", 1⟩, ⟨"500", 1⟩] j libroDefault) =
        strip "300" := ⟨1, by norm_num, by decide⟩
  exact ⟨hs, hmem,
    (claim3_busqueda_binaria [⟨"100", 1⟩, ⟨"300", 1⟩, ⟨"500", 1⟩] "300" hs).1 hmem⟩

theorem consistente_agregar (g : GestorInventario) (libro : Libro)
    (hg : Consistente g) : Consistente (g.agregar_libro libro).1 := by
  rcases hfind : g.buscar_por_isbn libro.isbn with _ | l
  · refine ⟨?_, ?_⟩
    · intro s
      have hperm : ((insertar_ordenado g.inventario_ordenado libro).map Libro.isbn).Perm
          ((libro :: g.inventario_ordenado).map Libro.isbn) := by
        rw [insertar_ordenado_eq_insOrd]
        exact (insOrd_perm libro g.inventario_ordenado).map Libro.isbn
      simp only [GestorInventario.agregar_libro, hfind, List.map_append, List.mem_append,
        hperm.mem_iff, List.map_cons, List.mem_cons, List.map_nil, List.mem_singleton]
      rw [hg.1 s]
      tauto
    · simp only [GestorInventario.agregar_libro, hfind]
      rw [insertar_ordenado_eq_insOrd]
      exact insOrd_sorted libro hg.2
  · simpa [GestorInventario.agregar_libro, hfind] using hg

theorem consistente_eliminar (g : GestorInventario) (isbn : String)
    (hg : Consistente g) : Consistente (g.eliminar_libro isbn).1 := by
  have key : ∀ (L : List Libro) (s : String),
      s ∈ (L.filter (fun l => !(l.isbn == isbn))).map Libro.isbn ↔
        s ∈ L.map Libro.isbn ∧ s ≠ isbn := by
    intro L s
    simp only [List.mem_map, List.mem_filter, Bool.not_eq_true', beq_eq_false_iff_ne, ne_eq]
    constructor
    · rintro ⟨x, ⟨hxL, hxne⟩, rfl⟩
      exact ⟨⟨x, hxL, rfl⟩, hxne⟩
    · rintro ⟨⟨x, hxL, rfl⟩, hne⟩
      exact ⟨x, ⟨hxL, hne⟩, rfl⟩
  refine ⟨?_, ?_⟩
  · intro s
    simp only [GestorInventario.eliminar_libro]
    rw [key, key, hg.1 s]
  · exact List.Pairwise.sublist (List.filter_sublist _) hg.2

/-- C5: starting from consistent inventories, after any sequence of
agregar_libro and eliminar_libro operations the set of ISBNs of the general
view equals the set of ISBNs of the sorted view, and the sorted view stays
non-decreasing by ISBN. -/
theorem claim5_consistencia_dual (g : GestorInventario) (ops : List OpInventario)
    (hg : Consistente g) : Consistente (ops.foldl GestorInventario.aplicar g) := by
  induction ops generalizing g with
  | nil => exact hg
  | cons op ops ih =>
    rw [List.foldl_cons]
    refine ih _ ?_
    cases op with
    | agregar libro => exact consistente_agregar g libro hg
    | eliminar isbn => exact consistente_eliminar g isbn hg

/-- Witness for C5: the empty dual inventory is consistent and stays so
after an add, a second add, and a remove. -/
theorem claim5_consistencia_dual_witness :
    Consistente ⟨[], []⟩ ∧
    Consistente ([OpInventario.agregar ⟨"300", 1⟩, OpInventario.agregar ⟨"100", 2⟩,
      OpInventario.eliminar "300"].foldl GestorInventario.aplicar ⟨[], []⟩) := by
  have hg : Consistente ⟨[], []⟩ := by
    simp [Consistente, OrdenadaPorIsbn]
  exact ⟨hg, claim5_consistencia_dual ⟨[], []⟩ _ hg⟩

/-- C7: on an empty unbounded queue, enqueueing three records with valid
identifiers and then dequeueing three times returns the three records in
insertion order (the stored records carry the stripped identifiers),
regardless of the ISBNs involved. -/
theorem claim7_cola_fifo (ida isbna fa idb isbnb fb idc isbnc fc : String)
    (ha1 : strip ida ≠ "") (ha2 : strip isbna ≠ "")
    (hb1 : strip idb ≠ "") (hb2 : strip isbnb ≠ "")
    (hc1 : strip idc ≠ "") (hc2 : strip isbnc ≠ "") :
    ∃ c1 c2 c3 : Cola,
      Cola.encolar ⟨[], none⟩ ida isbna fa = .ok (c1, true) ∧
      Cola.encolar c1 idb isbnb fb = .ok (c2, true) ∧
      Cola.encolar c2 idc isbnc fc = .ok (c3, true) ∧
      (c3.desencolar).1 = some ⟨strip ida, strip isbna, fa⟩ ∧
      ((c3.desencolar).2.desencolar).1 = some ⟨strip idb, strip isbnb, fb⟩ ∧
      ((c3.desencolar).2.desencolar).2.desencolar =
        (some ⟨strip idc, strip isbnc, fc⟩, ⟨[], none⟩) := by
  refine ⟨⟨[⟨strip ida, strip isbna, fa⟩], none⟩,
    ⟨[⟨strip ida, strip isbna, fa⟩, ⟨strip idb, strip isbnb, fb⟩], none⟩,
    ⟨[⟨strip ida, strip isbna, fa⟩, ⟨strip idb, strip isbnb, fb⟩,
      ⟨strip idc, strip isbnc, fc⟩], none⟩, ?_, ?_, ?_, rfl, rfl, rfl⟩
  · simp [Cola.encolar, Cola.esta_llena, ha1, ha2]
  · simp [Cola.encolar, Cola.esta_llena, hb1, hb2]
  · simp [Cola.encolar, Cola.esta_llena, hc1, hc2]

/-- Witness for C7 on three concrete reservations for two different books. -/
theorem claim7_cola_fifo_witness :
    strip "U1" ≠ "" ∧
    ∃ c1 c2 c3 : Cola,
      Cola.encolar ⟨[], none⟩ "U1" "ISBN-A" "f1" = .ok (c1, true) ∧
      Cola.encolar c1 "U2" "ISBN-B" "f2" = .ok (c2, true) ∧
      Cola.encolar c2 "U3" "ISBN-A" "f3" = .ok (c3, true) ∧
      (c3.desencolar).1 = some ⟨strip "U1", strip "ISBN-A", "f1"⟩ ∧
      ((c3.desencolar).2.desencolar).1 = some ⟨strip "U2", strip "ISBN-B", "f2"⟩ ∧
      ((c3.desencolar).2.desencolar).2.desencolar =
        (some ⟨strip "U3", strip "ISBN-A", "f3"⟩, ⟨[], none⟩) :=
  ⟨by decide, claim7_cola_fifo "U1" "ISBN-A" "f1" "U2" "ISBN-B" "f2" "U3" "ISBN-A" "f3"
    (by decide) (by decide) (by decide) (by decide) (by decide) (by decide)⟩

/-- C8: dequeue and peek on an empty queue return the empty signal None (they
are total, never raising); enqueue with a blank user id or a blank ISBN
raises ValueError, reported before any mutation (the error result carries no
queue, so the caller keeps the old one unchanged). -/
theorem claim8_cola_fallos :
    (∀ cap : Option Nat,
      Cola.desencolar ⟨[], cap⟩ = (none, ⟨[], cap⟩) ∧ Cola.frente ⟨[], cap⟩ = none) ∧
    (∀ (c : Cola) (id_usuario isbn fecha : String),
      strip id_usuario = "" ∨ strip isbn = "" →
      ∃ e : String, Cola.encolar c id_usuario isbn fecha = .error e) := by
  refine ⟨fun cap => ⟨rfl, rfl⟩, ?_⟩
  rintro c id_usuario isbn fecha (h | h)
  · exact ⟨"User ID cannot be empty", by simp [Cola.encolar, h]⟩
  · by_cases h1 : strip id_usuario = ""
    · exact ⟨"User ID cannot be empty", by simp [Cola.encolar, h1]⟩
    · exact ⟨"ISBN cannot be empty", by simp [Cola.encolar, h1, h]⟩

/-- Witness for C8: the unbounded empty queue, and an enqueue with a
whitespace-only user id. -/
theorem claim8_cola_fallos_witness :
    (Cola.desencolar ⟨[], none⟩ = (none, ⟨[], none⟩) ∧ Cola.frente ⟨[], none⟩ = none) ∧
    ∃ e : String, Cola.encolar ⟨[], none⟩ "   " "ISBN-A" "f" = .error e :=
  ⟨claim8_cola_fallos.1 none,
    claim8_cola_fallos.2 ⟨[], none⟩ "   " "ISBN-A" "f" (Or.inl (by decide))⟩

/-- C9: the user-facing full-history operation returns the loan records most
recent first: it is the reverse of the stored (push-order) stack, and after a
successful push the new record is the head of the returned sequence. -/
theorem claim9_historial_reciente_primero (s : Sistema) (id_usuario isbn fecha : String)
    (pila pila2 : Pila)
    (hpush : pila.apilar isbn fecha = .ok (pila2, true))
    (hlk : s.historial_prestamos.lookup id_usuario = some pila2) :
    obtener_historial_usuario s id_usuario = pila2.obtener_todos.reverse ∧
    obtener_historial_usuario s id_usuario = ⟨strip isbn, fecha⟩ :: pila.elementos.reverse := by
  have h2 : pila2 = { pila with elementos := pila.elementos ++ [⟨strip isbn, fecha⟩] } := by
    unfold Pila.apilar at hpush
    by_cases h : strip isbn = ""
    · simp [h] at hpush
    · by_cases hf : pila.esta_llena
      · simp [h, hf] at hpush
      · simp [h, hf] at hpush
        exact hpush.symm
  refine ⟨by simp [obtener_historial_usuario, hlk, Pila.obtener_todos], ?_⟩
  simp [obtener_historial_usuario, hlk, h2, Pila.obtener_todos]

/-- Witness for C9: a stack holding one older loan receives a push of
ISBN-B; the history listing shows ISBN-B first. -/
theorem claim9_historial_reciente_primero_witness :
    Pila.apilar ⟨[⟨"ISBN-A", "f0"⟩], none⟩ "ISBN-B" "f1" =
      .ok (⟨[⟨"ISBN-A", "f0"⟩, ⟨"ISBN-B", "f1"⟩], none⟩, true) ∧
    obtener_historial_usuario
      ⟨⟨[], []⟩, [], ⟨[], none⟩,
        [("U1", ⟨[⟨"ISBN-A", "f0"⟩, ⟨"ISBN-B", "f1"⟩], none⟩)]⟩ "U1" =
      ⟨strip "ISBN-B", "f1"⟩ :: ([⟨"ISBN-A", "f0"⟩] : List Prestamo).reverse := by
  have hpush : Pila.apilar ⟨[⟨"ISBN-A", "f0"⟩], none⟩ "ISBN-B" "f1" =
      .ok (⟨[⟨"ISBN-A", "f0"⟩, ⟨"ISBN-B", "f1"⟩], none⟩, true) := by
    have hb : strip "ISBN-B" = "ISBN-B" := by decide
    simp [Pila.apilar, Pila.esta_llena, hb]
  refine ⟨hpush, ?_⟩
  exact (claim9_historial_reciente_primero
    ⟨⟨[], []⟩, [], ⟨[], none⟩, [("U1", ⟨[⟨"ISBN-A", "f0"⟩, ⟨"ISBN-B", "f1"⟩], none⟩)]⟩
    "U1" "ISBN-B" "f1" ⟨[⟨"ISBN-A", "f0"⟩], none⟩
    ⟨[⟨"ISBN-A", "f0"⟩, ⟨"ISBN-B", "f1"⟩], none⟩ hpush (by decide)).2

/-- C10: adding a book whose stripped ISBN already occurs in the sorted view
(sorted by the stripped key, so that binary search is applicable) returns
False and leaves the manager state unchanged. -/
theorem claim10_agregar_duplicado (g : GestorInventario) (libro : Libro)
    (hs : OrdenadaPorClave g.inventario_ordenado)
    (hmem : ∃ j : Nat, j < g.inventario_ordenado.length ∧
      claveBusqueda (g.inventario_ordenado.getD j libroDefault) = strip libro.isbn) :
    g.agregar_libro libro = (g, false) := by
  obtain ⟨j, hj, hkey⟩ := hmem
  have hne : busqueda_binaria g.inventario_ordenado libro.isbn ≠ -1 :=
    busquedaAux_complete g.inventario_ordenado (strip libro.isbn) 0
      ((g.inventario_ordenado.length : Int) - 1) (by omega) (by omega) hs j hj
      (by omega) (by omega) hkey
  have hfind : g.buscar_por_isbn libro.isbn =
      some (g.inventario_ordenado.getD
        (busqueda_binaria g.inventario_ordenado libro.isbn).toNat libroDefault) := by
    simp only [GestorInventario.buscar_por_isbn, buscar_libro_por_isbn]
    rw [if_pos hne]
  simp [GestorInventario.agregar_libro, hfind]

/-- Witness for C10: adding a second book with ISBN 100 to a singleton
inventory holding ISBN 100. -/
theorem claim10_agregar_duplicado_witness :
    OrdenadaPorClave [⟨"100", 1⟩] ∧
    GestorInventario.agregar_libro ⟨[⟨"100", 1⟩], [⟨"100", 1⟩]⟩ ⟨"100", 5⟩ =
      (⟨[⟨"100", 1⟩], [⟨"100", 1⟩]⟩, false) := by
  have hs : OrdenadaPorClave [(⟨"100", 1⟩ : Libro)] := by
    simp [OrdenadaPorClave]
  exact ⟨hs, claim10_agregar_duplicado ⟨[⟨"100", 1⟩], [⟨"100", 1⟩]⟩ ⟨"100", 5⟩ hs
    ⟨0, by norm_num, by decide⟩⟩

/-- C2 counterexample: with the queue [ (U1, ISBN-B), (U2, ISBN-A) ], the
peek for ISBN-A returns the U2 record while the global dequeue removes the
U1 record, so the dequeued record is not the peeked one. -/
theorem claim2_contraejemplo :
    Cola.obtener_siguiente_usuario
        ⟨[⟨"U1", "ISBN-B", "f1"⟩, ⟨"U2", "ISBN-A", "f2"⟩], none⟩ "ISBN-A" =
      some ⟨"U2", "ISBN-A", "f2"⟩ ∧
    (Cola.desencolar ⟨[⟨"U1", "ISBN-B", "f1"⟩, ⟨"U2", "ISBN-A", "f2"⟩], none⟩).1 =
      some ⟨"U1", "ISBN-B", "f1"⟩ ∧
    (⟨"U1", "ISBN-B", "f1"⟩ : Registro) ≠ ⟨"U2", "ISBN-A", "f2"⟩ := by
  decide

/-- C2 (amended): whenever the peek for the returned ISBN returns a record
that is also the global head of the queue, the subsequent global dequeue
removes exactly that record, and the protocol reports its user as
usuario_asignado (that record being the earliest reservation for the ISBN by
the front-to-rear scan of the peek). -/
theorem claim2_desencolar_en_cabeza (s : Sistema) (isbn fecha : String) (r : Registro)
    (hs : OrdenadaPorClave s.inventario.inventario_ordenado)
    (hbook : ∃ j : Nat, j < s.inventario.inventario_ordenado.length ∧
      claveBusqueda (s.inventario.inventario_ordenado.getD j libroDefault) = strip isbn)
    (hpeek : s.cola_reservas.obtener_siguiente_usuario isbn = some r)
    (hhead : s.cola_reservas.frente = some r) :
    (verificar_y_asignar_reserva isbn s fecha).2.usuario_asignado = some r.id_usuario ∧
    (verificar_y_asignar_reserva isbn s fecha).2.reserva_procesada = some r := by
  obtain ⟨j, hj, hkey⟩ := hbook
  have hne : busqueda_binaria s.inventario.inventario_ordenado isbn ≠ -1 :=
    busquedaAux_complete s.inventario.inventario_ordenado (strip isbn) 0
      ((s.inventario.inventario_ordenado.length : Int) - 1) (by omega) (by omega)
      hs j hj (by omega) (by omega) hkey
  rcases helems : s.cola_reservas.elementos with _ | ⟨r0, rest⟩
  · simp [Cola.frente, helems] at hhead
  · have hr0 : r0 = r := by
      simp only [Cola.frente, helems] at hhead
      exact Option.some.inj hhead
    subst hr0
    have hdeq : s.cola_reservas.desencolar =
        (some r0, { s.cola_reservas with elementos := rest }) := by
      simp [Cola.desencolar, helems]
    simp only [verificar_y_asignar_reserva, hpeek, hdeq, if_neg hne]
    exact ⟨trivial, trivial⟩

/-- Witness for C2 (amended): a singleton queue whose head reserves the
returned book. -/
theorem claim2_desencolar_en_cabeza_witness :
    OrdenadaPorClave [⟨"ISBN-A", 0⟩] ∧
    (verificar_y_asignar_reserva "ISBN-A"
      ⟨⟨[⟨"ISBN-A", 0⟩], [⟨"ISBN-A", 0⟩]⟩, [], ⟨[⟨"U2", "ISBN-A", "f2"⟩], none⟩, []⟩
      "f3").2.usuario_asignado = some (Registro.id_usuario ⟨"U2", "ISBN-A", "f2"⟩) := by
  have hs : OrdenadaPorClave [(⟨"ISBN-A", 0⟩ : Libro)] := by
    simp [OrdenadaPorClave]
  refine ⟨hs, ?_⟩
  exact (claim2_desencolar_en_cabeza
    ⟨⟨[⟨"ISBN-A", 0⟩], [⟨"ISBN-A", 0⟩]⟩, [], ⟨[⟨"U2", "ISBN-A", "f2"⟩], none⟩, []⟩
    "ISBN-A" "f3" ⟨"U2", "ISBN-A", "f2"⟩ hs ⟨0, by norm_num, by decide⟩
    (by decide) (by decide)).1

theorem clave_bump (isbn : String) (l : Libro) :
    claveBusqueda (if strip l.isbn = strip isbn then l.incrementar_stock else l) =
      claveBusqueda l := by
  split <;> simp [claveBusqueda, Libro.incrementar_stock]

theorem length_incrementarStock (lista : List Libro) (isbn : String) :
    (incrementarStock lista isbn).length = lista.length := by
  simp [incrementarStock]

theorem clave_incrementarStock (lista : List Libro) (isbn : String) (j : Nat)
    (hj : j < lista.length) :
    claveBusqueda ((incrementarStock lista isbn).getD j libroDefault) =
      claveBusqueda (lista.getD j libroDefault) := by
  have hj2 : j < (incrementarStock lista isbn).length := by
    rw [length_incrementarStock]
    exact hj
  rw [List.getD_eq_getElem _ _ hj2, List.getD_eq_getElem _ _ hj]
  simp only [incrementarStock, List.getElem_map]
  exact clave_bump isbn _

theorem ordenada_incrementarStock {lista : List Libro} (isbn : String)
    (hs : OrdenadaPorClave lista) : OrdenadaPorClave (incrementarStock lista isbn) := by
  unfold OrdenadaPorClave incrementarStock
  rw [List.pairwise_map]
  refine hs.imp ?_
  intro a b hab
  rw [clave_bump isbn a, clave_bump isbn b]
  exact hab

/-- C6: a valid return (user registered, loan of this ISBN in the user
history, book present in the sorted view) with no queued reservation for the
returned ISBN succeeds, incrementing the stock of that book by exactly one
in both views, decrementing the returning user loan count, and leaving the
reservation queue exactly as it was. -/
theorem claim6_devolucion_sin_reservas (s : Sistema) (id_usuario isbn fecha : String)
    (u : Usuario) (pila : Pila)
    (hu : s.usuarios.lookup id_usuario = some u)
    (hs : OrdenadaPorClave s.inventario.inventario_ordenado)
    (hbook : ∃ j : Nat, j < s.inventario.inventario_ordenado.length ∧
      claveBusqueda (s.inventario.inventario_ordenado.getD j libroDefault) = strip isbn)
    (hhist : s.historial_prestamos.lookup id_usuario = some pila)
    (hloan : isbn ∈ pila.elementos.map Prestamo.isbn)
    (hq : ∀ r ∈ s.cola_reservas.elementos, r.isbn ≠ isbn) :
    devolver_libro s id_usuario isbn fecha =
      ({ s.incrementarStockLibro isbn with
          usuarios := actualizarUsuario s.usuarios id_usuario Usuario.decrementar_prestamos },
        true) ∧
    (devolver_libro s id_usuario isbn fecha).1.cola_reservas = s.cola_reservas := by
  obtain ⟨j, hj, hkey⟩ := hbook
  have hne : busqueda_binaria s.inventario.inventario_ordenado isbn ≠ -1 :=
    busquedaAux_complete s.inventario.inventario_ordenado (strip isbn) 0
      ((s.inventario.inventario_ordenado.length : Int) - 1) (by omega) (by omega)
      hs j hj (by omega) (by omega) hkey
  have hfind : buscar_libro_por_isbn s.inventario.inventario_ordenado isbn =
      some (s.inventario.inventario_ordenado.getD
        (busqueda_binaria s.inventario.inventario_ordenado isbn).toNat libroDefault) := by
    simp only [buscar_libro_por_isbn]
    rw [if_pos hne]
  have hvacia : pila.esta_vacia = false := by
    rcases hp : pila.elementos with _ | ⟨x, xs⟩
    · rw [hp] at hloan
      simp at hloan
    · simp [Pila.esta_vacia, hp]
  have hcont : (pila.elementos.map Prestamo.isbn).contains isbn = true := by
    exact List.elem_eq_true_of_mem hloan
  have hne2 : busqueda_binaria (incrementarStock s.inventario.inventario_ordenado isbn)
      isbn ≠ -1 :=
    busquedaAux_complete _ (strip isbn) 0
      (((incrementarStock s.inventario.inventario_ordenado isbn).length : Int) - 1)
      (by omega) (by omega) (ordenada_incrementarStock isbn hs) j
      (by rw [length_incrementarStock]; exact hj)
      (by omega) (by rw [length_incrementarStock]; omega)
      (by rw [clave_incrementarStock _ _ _ hj]; exact hkey)
  have hpeek : s.cola_reservas.obtener_siguiente_usuario isbn = none := by
    unfold Cola.obtener_siguiente_usuario
    rw [List.find?_eq_none]
    intro r hr
    simp only [beq_eq_false_iff_ne, ne_eq, beq_iff_eq]
    exact hq r hr
  constructor
  · simp only [devolver_libro, hu, hfind, hhist, hvacia, hcont, Bool.false_eq_true,
      if_false, not_true]
    simp only [verificar_y_asignar_reserva, Sistema.incrementarStockLibro, hpeek,
      if_neg hne2]
  · simp only [devolver_libro, hu, hfind, hhist, hvacia, hcont, Bool.false_eq_true,
      if_false, not_true]
    simp only [verificar_y_asignar_reserva, Sistema.incrementarStockLibro, hpeek,
      if_neg hne2]

/-- Witness for C6: user U2 returns ISBN-A; the only queued reservation is
for a different book, so the queue survives untouched and the stock rises by
one. -/
theorem claim6_devolucion_sin_reservas_witness :
    OrdenadaPorClave [⟨"ISBN-A", 2⟩] ∧
    devolver_libro
        ⟨⟨[⟨"ISBN-A", 2⟩], [⟨"ISBN-A", 2⟩]⟩, [("U2", ⟨"U2", true, 1, 3⟩)],
          ⟨[⟨"U9", "ISBN-B", "f"⟩], none⟩, [("U2", ⟨[⟨"ISBN-A", "f0"⟩], none⟩)]⟩
        "U2" "ISBN-A" "f1" =
      ({ Sistema.incrementarStockLibro
            ⟨⟨[⟨"ISBN-A", 2⟩], [⟨"ISBN-A", 2⟩]⟩, [("U2", ⟨"U2", true, 1, 3⟩)],
              ⟨[⟨"U9", "ISBN-B", "f"⟩], none⟩, [("U2", ⟨[⟨"ISBN-A", "f0"⟩], none⟩)]⟩
            "ISBN-A" with
          usuarios := actualizarUsuario [("U2", ⟨"U2", true, 1, 3⟩)] "U2"
            Usuario.decrementar_prestamos }, true) := by
  have hs : OrdenadaPorClave [(⟨"ISBN-A", 2⟩ : Libro)] := by
    simp [OrdenadaPorClave]
  refine ⟨hs, ?_⟩
  exact (claim6_devolucion_sin_reservas
    ⟨⟨[⟨"ISBN-A", 2⟩], [⟨"ISBN-A", 2⟩]⟩, [("U2", ⟨"U2", true, 1, 3⟩)],
      ⟨[⟨"U9", "ISBN-B", "f"⟩], none⟩, [("U2", ⟨[⟨"ISBN-A", "f0"⟩], none⟩)]⟩
    "U2" "ISBN-A" "f1" ⟨"U2", true, 1, 3⟩ ⟨[⟨"ISBN-A", "f0"⟩], none⟩
    (by decide) hs ⟨0, by norm_num, by decide⟩ (by decide) (by decide) (by decide)).1

/-- C1, evaluated at the failing input of the claim scenario: the book has
stock 0 and one reservation (U1, ISBN-A); user U2, holding a loan of ISBN-A,
returns it.  The return succeeds, the queue ends with zero records for
ISBN-A, U1 ends with one active loan and a new ISBN-A entry on its history
stack — but the stock ends at 1, not at its starting value 0: the return
increments it and the automatic loan never decrements it (the comment in
procesar_prestamo_automatico claims verificar_y_asignar_reserva already
decremented the stock, which that function never does). -/
theorem claim1_devolucion_con_reserva_entrada_fallida :
    devolver_libro
        ⟨⟨[⟨"ISBN-A", 0⟩], [⟨"ISBN-A", 0⟩]⟩,
          [("U1", ⟨"U1", true, 0, 3⟩), ("U2", ⟨"U2", true, 1, 3⟩)],
          ⟨[⟨"U1", "ISBN-A", "f0"⟩], none⟩,
          [("U2", ⟨[⟨"ISBN-A", "fp"⟩], none⟩)]⟩
        "U2" "ISBN-A" "f1" =
      (⟨⟨[⟨"ISBN-A", 1⟩], [⟨"ISBN-A", 1⟩]⟩,
          [("U1", ⟨"U1", true, 1, 3⟩), ("U2", ⟨"U2", true, 0, 3⟩)],
          ⟨[], none⟩,
          [("U2", ⟨[⟨"ISBN-A", "fp"⟩], none⟩), ("U1", ⟨[⟨"ISBN-A", "f1"⟩], none⟩)]⟩,
        true) ∧
    Cola.contar_reservas_libro ⟨[], none⟩ "ISBN-A" = 0 ∧
    List.lookup "U1" [("U1", (⟨"U1", true, 1, 3⟩ : Usuario)), ("U2", ⟨"U2", true, 0, 3⟩)] =
      some ⟨"U1", true, 1, 3⟩ ∧
    obtener_historial_usuario
        ⟨⟨[⟨"ISBN-A", 1⟩], [⟨"ISBN-A", 1⟩]⟩,
          [("U1", ⟨"U1", true, 1, 3⟩), ("U2", ⟨"U2", true, 0, 3⟩)],
          ⟨[], none⟩,
          [("U2", ⟨[⟨"ISBN-A", "fp"⟩], none⟩), ("U1", ⟨[⟨"ISBN-A", "f1"⟩], none⟩)]⟩ "U1" =
      [⟨"ISBN-A", "f1"⟩] ∧
    List.map Libro.stock [⟨"ISBN-A", 1⟩] ≠ List.map Libro.stock [⟨"ISBN-A", 0⟩] := by
  have hstrip : strip "ISBN-A" = "ISBN-A" := by decide
  have hb0 : busqueda_binaria [⟨"ISBN-A", 0⟩] "ISBN-A" = 0 := by
    rw [busqueda_binaria, busquedaAux]
    simp [claveBusqueda]
  have hb1 : busqueda_binaria [⟨"ISBN-A", 1⟩] "ISBN-A" = 0 := by
    rw [busqueda_binaria, busquedaAux]
    simp [claveBusqueda]
  have hf0 : buscar_libro_por_isbn [⟨"ISBN-A", 0⟩] "ISBN-A" = some ⟨"ISBN-A", 0⟩ := by
    simp [buscar_libro_por_isbn, hb0]
  have hf1 : buscar_libro_por_isbn [⟨"ISBN-A", 1⟩] "ISBN-A" = some ⟨"ISBN-A", 1⟩ := by
    simp [buscar_libro_por_isbn, hb1]
  have hpil : Pila.apilar ⟨[], none⟩ "ISBN-A" "f1" = .ok (⟨[⟨"ISBN-A", "f1"⟩], none⟩, true) := by
    simp [Pila.apilar, Pila.esta_llena, hstrip]
  refine ⟨?_, by decide, by decide, by decide, by decide⟩
  simp [devolver_libro, hf0, hf1, hb1, verificar_y_asignar_reserva,
    procesar_prestamo_automatico, Sistema.incrementarStockLibro, incrementarStock,
    actualizarUsuario, fijarPila, Cola.obtener_siguiente_usuario, Cola.desencolar,
    Pila.esta_vacia, Usuario.puede_prestar, Usuario.incrementar_prestamos,
    Usuario.decrementar_prestamos, Libro.incrementar_stock, hstrip, hpil,
    List.lookup, Pila.obtener_todos]

end Biblioteca
